import Mathlib

/-!
Verification development for the `benchmark_function` repository
(`src/benchmark_function/benchmark_function.py`).

The source is a catalog of nine numpy-vectorised benchmark functions for
optimization, a shared shape validator `check`, and two metadata accessors
`search_area` and `optimal_solution`.  Python floats are modelled by real
numbers; a coerced numpy array-like value is modelled by the nesting tree
`PyArr`, whose nesting depth is the array rank (the length of `numpy.shape`
for rectangular data); a Python exception is modelled by `Except String`.
Numpy axis-1 operations on a rank-2 array are embedded as the corresponding
operations on a list of rows.
-/

noncomputable section

/-- A numeric array-like value, as accepted by `np.array` in `check`:
either a scalar or a (nested) sequence of array-like values. -/
inductive PyArr where
  | scalar (x : ℝ)
  | arr (elems : List PyArr)

/-- The rank (`len(np.array(x).shape)`) of a coerced array-like value:
nesting depth along the first elements, which is the numpy rank for the
rectangular data numpy coerces to a numeric array. -/
def PyArr.rank : PyArr → Nat
  | .scalar _ => 0
  | .arr [] => 1
  | .arr (e :: _) => e.rank + 1

/-- Numeric content of a leaf of a rank-2 array. -/
def PyArr.toScalar : PyArr → ℝ
  | .scalar x => x
  | .arr _ => 0

/-- One row of a rank-2 array-like value. -/
def PyArr.toRow : PyArr → List ℝ
  | .scalar x => [x]
  | .arr es => es.map PyArr.toScalar

/-- The rows of a rank-2 array-like value: the list-of-rows view of the
coerced `(n, m)` numpy array. -/
def PyArr.toMat : PyArr → List (List ℝ)
  | .scalar _ => []
  | .arr rows => rows.map PyArr.toRow

/-- The message of the exception raised by `check` (source line 14). -/
def shapeErrMsg : String :=
  "Only 2D array is expected. Reshape your data either using X.reshape(-1, 1) if your data has a single feature or X.reshape(1, -1) if it contains a single sample."

/-- Source `check(x)`: coerce the input and raise unless its rank is
exactly 2; on success hand the coerced 2D array (as its rows) to the caller. -/
def check (x : PyArr) : Except String (List (List ℝ)) :=
  if x.rank = 2 then .ok x.toMat else .error shapeErrMsg

/-- Elementwise map over a rank-2 array, as numpy broadcasts a unary
scalar operation. -/
def emap (f : ℝ → ℝ) (A : List (List ℝ)) : List (List ℝ) :=
  A.map (fun r => r.map f)

/-- Elementwise combination of two same-shape rank-2 arrays. -/
def ezip (f : ℝ → ℝ → ℝ) (A B : List (List ℝ)) : List (List ℝ) :=
  List.zipWith (fun r s => List.zipWith f r s) A B

/-- Combination of an `(n, 1)` column with an `(n, k)` array under numpy
broadcasting: the single column entry is paired with every entry of the
matching row. -/
def bezip (f : ℝ → ℝ → ℝ) (C B : List (List ℝ)) : List (List ℝ) :=
  List.zipWith (fun c r => r.map (f (c.headD 0))) C B

/-- Broadcast multiplication of an `(n, m)` array with a length-`m` vector,
as in `input_array * coef`. -/
def rowBroadcastMul (A : List (List ℝ)) (v : List ℝ) : List (List ℝ) :=
  A.map (fun r => List.zipWith (fun a c => a * c) r v)

/-- Numpy `.sum(axis=1)` (equivalently `axis=-1`) on a rank-2 array:
the vector of row sums. -/
def sumAxis1 (A : List (List ℝ)) : List ℝ :=
  A.map List.sum

/-- Addition of two length-`n` result vectors. -/
def vadd (u v : List ℝ) : List ℝ :=
  List.zipWith (fun a b => a + b) u v

/-- `input_array.shape[1]` of the rows view of a rank-2 array. -/
def ncols (A : List (List ℝ)) : Nat :=
  (A.headD []).length

/-- Column slice `A[:, :k]`. -/
def colsTake (k : Nat) (A : List (List ℝ)) : List (List ℝ) :=
  A.map (fun r => r.take k)

/-- Column slice `A[:, k:]`. -/
def colsDrop (k : Nat) (A : List (List ℝ)) : List (List ℝ) :=
  A.map (fun r => r.drop k)

/-- Column slice `A[:, :-1]`. -/
def colsInit (A : List (List ℝ)) : List (List ℝ) :=
  A.map (fun r => r.dropLast)

/-- Python true division of two machine naturals, raising
`ZeroDivisionError` on a zero denominator, as in `i/(dim-1)`. -/
def pydivE (a b : Nat) : Except String ℝ :=
  if b = 0 then .error "ZeroDivisionError: division by zero"
  else .ok ((a : ℝ) / (b : ℝ))

namespace BenchmarkFunction

/-- Body of `Sphere` after `check`: `(input_array**2).sum(axis=-1)`. -/
def Sphere_mat (A : List (List ℝ)) : List ℝ :=
  sumAxis1 (emap (fun x => x ^ 2) A)

/-- The coefficient list of `Ellipsoid` for `dim ≥ 2`:
`[1000**(i/(dim-1)) for i in range(dim)]` (real exponentiation). -/
def Ellipsoid_coef (dim : Nat) : List ℝ :=
  (List.range dim).map (fun i : ℕ => (1000 : ℝ) ^ ((i : ℝ) / ((dim : ℝ) - 1)))

/-- Body of `Ellipsoid` after `check`, on the success path of the
coefficient construction: `((input_array*coef)**2).sum(axis=1)`. -/
def Ellipsoid_mat (A : List (List ℝ)) : List ℝ :=
  sumAxis1 (emap (fun x => x ^ 2) (rowBroadcastMul A (Ellipsoid_coef (ncols A))))

/-- Body of `kTablet` after `check`; `k = math.ceil(dim/4)`, which on
naturals is `(dim + 3) / 4`. -/
def kTablet_mat (A : List (List ℝ)) : List ℝ :=
  vadd (sumAxis1 (emap (fun x => x ^ 2) (colsTake ((ncols A + 3) / 4) A)))
    (sumAxis1 (emap (fun x => x ^ 2)
      (emap (fun x => 100 * x) (colsDrop ((ncols A + 3) / 4) A))))

/-- Body of `RosenbrockStar` after `check`: the `(n, 1)` slice
`input_array[:, :1]` broadcast against `input_array[:, 1:]` in
`(100*(first - rest**2)**2 + (1 - rest)**2).sum(axis=1)`. -/
def RosenbrockStar_mat (A : List (List ℝ)) : List ℝ :=
  sumAxis1 (bezip (fun a b => 100 * (a - b ^ 2) ^ 2 + (1 - b) ^ 2)
    (colsTake 1 A) (colsDrop 1 A))

/-- Body of `RosenbrockChain` after `check`:
`(100*(A[:,1:] - A[:,:-1]**2)**2 + (1 - A[:,:-1])**2).sum(axis=1)`. -/
def RosenbrockChain_mat (A : List (List ℝ)) : List ℝ :=
  sumAxis1 (ezip (fun b a => 100 * (b - a ^ 2) ^ 2 + (1 - a) ^ 2)
    (colsDrop 1 A) (colsInit A))

/-- Body of `Bohachevsky` after `check`, an elementwise expression in
`a = A[:,:-1]` and `b = A[:,1:]` summed along axis 1. -/
def Bohachevsky_mat (A : List (List ℝ)) : List ℝ :=
  sumAxis1 (ezip (fun a b =>
      a ^ 2 + 2 * b ^ 2 - 0.3 * Real.cos (3 * Real.pi * a)
        - 0.4 * Real.cos (4 * Real.pi * b) + 0.7)
    (colsInit A) (colsDrop 1 A))

/-- Body of `Ackley` after `check`:
`20 - 20*exp(-0.2*((A**2).sum(1)/dim)**0.5) + e - exp(cos(2*pi*A).sum(1)/dim)`,
with `np.e = exp 1` and `**0.5` real exponentiation. -/
def Ackley_mat (A : List (List ℝ)) : List ℝ :=
  List.zipWith (fun s c =>
      20 - 20 * Real.exp (-0.2 * (s / (ncols A : ℝ)) ^ ((0.5 : ℝ)))
        + Real.exp 1 - Real.exp (c / (ncols A : ℝ)))
    (sumAxis1 (emap (fun x => x ^ 2) A))
    (sumAxis1 (emap (fun x => Real.cos (2 * Real.pi * x)) A))

/-- Body of `Schaffer` after `check`, an elementwise expression in
`a = A[:,:-1]` and `b = A[:,1:]` summed along axis 1; `**0.25` and `**0.1`
are real exponentiation. -/
def Schaffer_mat (A : List (List ℝ)) : List ℝ :=
  sumAxis1 (ezip (fun a b =>
      (a ^ 2 + b ^ 2) ^ ((0.25 : ℝ))
        * (Real.sin (50 * (a ^ 2 + b ^ 2) ^ ((0.1 : ℝ))) ^ 2 + 1.0))
    (colsInit A) (colsDrop 1 A))

/-- Body of `Rastrigin` after `check`:
`10*dim + ((A-1)**2 - 10*cos(2*pi*(A-1))).sum(axis=1)`, the scalar
`10*dim` broadcast over the row-sum vector. -/
def Rastrigin_mat (A : List (List ℝ)) : List ℝ :=
  (sumAxis1 (emap (fun x => (x - 1) ^ 2 - 10 * Real.cos (2 * Real.pi * (x - 1))) A)).map
    (fun s => 10 * (ncols A : ℝ) + s)

/-- Method `Sphere`: validate, then evaluate. -/
def Sphere (x : PyArr) : Except String (List ℝ) :=
  (check x).map Sphere_mat

/-- Method `Ellipsoid`: validate, build the coefficient list (whose
`i/(dim-1)` exponents raise `ZeroDivisionError` when `dim = 1`), then
evaluate. -/
def Ellipsoid (x : PyArr) : Except String (List ℝ) :=
  Except.bind (check x) (fun A =>
    Except.bind ((List.range (ncols A)).mapM (fun i => pydivE i (ncols A - 1)))
      (fun exps =>
        Except.ok (sumAxis1 (emap (fun t => t ^ 2)
          (rowBroadcastMul A (exps.map (fun e => (1000 : ℝ) ^ e)))))))

/-- Method `kTablet`: validate, then evaluate. -/
def kTablet (x : PyArr) : Except String (List ℝ) :=
  (check x).map kTablet_mat

/-- Method `RosenbrockStar`: validate, then evaluate. -/
def RosenbrockStar (x : PyArr) : Except String (List ℝ) :=
  (check x).map RosenbrockStar_mat

/-- Method `RosenbrockChain`: validate, then evaluate. -/
def RosenbrockChain (x : PyArr) : Except String (List ℝ) :=
  (check x).map RosenbrockChain_mat

/-- Method `Bohachevsky`: validate, then evaluate. -/
def Bohachevsky (x : PyArr) : Except String (List ℝ) :=
  (check x).map Bohachevsky_mat

/-- Method `Ackley`: validate, then evaluate. -/
def Ackley (x : PyArr) : Except String (List ℝ) :=
  (check x).map Ackley_mat

/-- Method `Schaffer`: validate, then evaluate. -/
def Schaffer (x : PyArr) : Except String (List ℝ) :=
  (check x).map Schaffer_mat

/-- Method `Rastrigin`: validate, then evaluate. -/
def Rastrigin (x : PyArr) : Except String (List ℝ) :=
  (check x).map Rastrigin_mat

/-- Method `search_area`: the fixed 9-entry interval table, in source
order, as an association list modelling the Python dict. -/
def search_area : List (String × (ℝ × ℝ)) :=
  [("Sphere", (-5.12, 5.12)),
   ("Ellipsoid", (-5.12, 5.12)),
   ("kTablet", (-5.12, 5.12)),
   ("RosenbrockStar", (-2.048, 2.048)),
   ("RosenbrockChain", (-2.048, 2.048)),
   ("Bohachevsky", (-5.12, 5.12)),
   ("Ackley", (-32.768, 32.768)),
   ("Schaffer", (-100, 100)),
   ("Rastrigin", (-5.12, 5.12))]

/-- Method `optimal_solution(dimension)`: Python `[0]*dimension` and
`[1]*dimension` yield the empty list for a non-positive dimension, which
`Int.toNat` captures. -/
def optimal_solution (dimension : ℤ) : List (String × List ℝ) :=
  let zeros := List.replicate dimension.toNat (0 : ℝ)
  let ones := List.replicate dimension.toNat (1 : ℝ)
  [("Sphere", zeros),
   ("Ellipsoid", zeros),
   ("kTablet", zeros),
   ("RosenbrockStar", ones),
   ("RosenbrockChain", ones),
   ("Bohachevsky", zeros),
   ("Ackley", zeros),
   ("Schaffer", zeros),
   ("Rastrigin", ones)]

/-- Value of `Sphere` on one row. -/
def Sphere_row (x : List ℝ) : ℝ :=
  (x.map (fun t => t ^ 2)).sum

/-- Value of `Ellipsoid` on one row of a width-`m` batch. -/
def Ellipsoid_row (m : Nat) (x : List ℝ) : ℝ :=
  ((List.zipWith (fun a c => a * c) x (Ellipsoid_coef m)).map (fun t => t ^ 2)).sum

/-- Value of `kTablet` on one row of a width-`m` batch. -/
def kTablet_row (m : Nat) (x : List ℝ) : ℝ :=
  ((x.take ((m + 3) / 4)).map (fun t => t ^ 2)).sum
    + (((x.drop ((m + 3) / 4)).map (fun t => 100 * t)).map (fun t => t ^ 2)).sum

/-- Value of `RosenbrockStar` on one row. -/
def RosenbrockStar_row (x : List ℝ) : ℝ :=
  ((x.drop 1).map (fun b =>
    100 * ((x.take 1).headD 0 - b ^ 2) ^ 2 + (1 - b) ^ 2)).sum

/-- Value of `RosenbrockChain` on one row. -/
def RosenbrockChain_row (x : List ℝ) : ℝ :=
  (List.zipWith (fun b a => 100 * (b - a ^ 2) ^ 2 + (1 - a) ^ 2)
    (x.drop 1) x.dropLast).sum

/-- Value of `Bohachevsky` on one row. -/
def Bohachevsky_row (x : List ℝ) : ℝ :=
  (List.zipWith (fun a b =>
      a ^ 2 + 2 * b ^ 2 - 0.3 * Real.cos (3 * Real.pi * a)
        - 0.4 * Real.cos (4 * Real.pi * b) + 0.7)
    x.dropLast (x.drop 1)).sum

/-- Value of `Ackley` on one row of a width-`m` batch. -/
def Ackley_row (m : Nat) (x : List ℝ) : ℝ :=
  20 - 20 * Real.exp (-0.2 * ((x.map (fun t => t ^ 2)).sum / (m : ℝ)) ^ ((0.5 : ℝ)))
    + Real.exp 1
    - Real.exp ((x.map (fun t => Real.cos (2 * Real.pi * t))).sum / (m : ℝ))

/-- Value of `Schaffer` on one row. -/
def Schaffer_row (x : List ℝ) : ℝ :=
  (List.zipWith (fun a b =>
      (a ^ 2 + b ^ 2) ^ ((0.25 : ℝ))
        * (Real.sin (50 * (a ^ 2 + b ^ 2) ^ ((0.1 : ℝ))) ^ 2 + 1.0))
    x.dropLast (x.drop 1)).sum

/-- Value of `Rastrigin` on one row of a width-`m` batch. -/
def Rastrigin_row (m : Nat) (x : List ℝ) : ℝ :=
  10 * (m : ℝ)
    + (x.map (fun t => (t - 1) ^ 2 - 10 * Real.cos (2 * Real.pi * (t - 1)))).sum

end BenchmarkFunction

/-- A rank-2 single-column array-like value with the given column entries,
the coercion of a Python list of singleton rows. -/
def colArr (xs : List ℝ) : PyArr :=
  .arr (xs.map (fun r => .arr [.scalar r]))

end

open BenchmarkFunction

theorem zipWith_map_same {α β γ δ : Type _} (F : β → γ → δ) (g : α → β) (h : α → γ)
    (A : List α) :
    List.zipWith F (A.map g) (A.map h) = A.map (fun a => F (g a) (h a)) := by
  rw [List.zipWith_map, List.zipWith_same]

theorem sum_map_getD (l : List ℝ) (f : ℝ → ℝ) :
    (l.map f).sum = ∑ i ∈ Finset.range l.length, f (l.getD i 0) := by
  induction l with
  | nil => simp
  | cons a t ih =>
    rw [List.map_cons, List.sum_cons, ih, List.length_cons, Finset.sum_range_succ']
    simp [add_comm]

theorem sum_zipWith_getD (f : ℝ → ℝ → ℝ) :
    ∀ a b : List ℝ, a.length = b.length →
      (List.zipWith f a b).sum = ∑ i ∈ Finset.range a.length, f (a.getD i 0) (b.getD i 0) := by
  intro a
  induction a with
  | nil => intro b h; simp
  | cons x xs ih =>
    intro b h
    cases b with
    | nil => simp at h
    | cons y ys =>
      rw [List.zipWith_cons_cons, List.sum_cons, List.length_cons, Finset.sum_range_succ',
        ih ys (by simpa using h)]
      simp [add_comm]

theorem getD_range_map (g : ℕ → ℝ) {m i : ℕ} (hi : i < m) :
    ((List.range m).map g).getD i 0 = g i := by
  have h1 : i < ((List.range m).map g).length := by simpa using hi
  rw [List.getD_eq_getElem _ _ h1]
  simp

theorem Sphere_mat_eq_map (A : List (List ℝ)) :
    Sphere_mat A = A.map Sphere_row := by
  simp [Sphere_mat, Sphere_row, sumAxis1, emap, List.map_map, Function.comp]

theorem Ellipsoid_mat_eq_map {m : ℕ} (A : List (List ℝ))
    (h : ∀ r ∈ A, r.length = m) :
    Ellipsoid_mat A = A.map (Ellipsoid_row m) := by
  cases A with
  | nil => rfl
  | cons r rs =>
    have hm : r.length = m := h r (List.mem_cons_self r rs)
    subst hm
    simp [Ellipsoid_mat, Ellipsoid_row, sumAxis1, emap, rowBroadcastMul, ncols,
      List.map_map, Function.comp]

theorem kTablet_mat_eq_map {m : ℕ} (A : List (List ℝ))
    (h : ∀ r ∈ A, r.length = m) :
    kTablet_mat A = A.map (kTablet_row m) := by
  cases A with
  | nil => rfl
  | cons r rs =>
    have hm : r.length = m := h r (List.mem_cons_self r rs)
    subst hm
    simp [kTablet_mat, kTablet_row, vadd, sumAxis1, emap, colsTake, colsDrop, ncols,
      List.map_map, Function.comp, zipWith_map_same]

theorem RosenbrockStar_mat_eq_map (A : List (List ℝ)) :
    RosenbrockStar_mat A = A.map RosenbrockStar_row := by
  simp [RosenbrockStar_mat, RosenbrockStar_row, bezip, sumAxis1, colsTake, colsDrop,
    List.map_map, Function.comp, zipWith_map_same]

theorem RosenbrockChain_mat_eq_map (A : List (List ℝ)) :
    RosenbrockChain_mat A = A.map RosenbrockChain_row := by
  simp [RosenbrockChain_mat, RosenbrockChain_row, ezip, sumAxis1, colsDrop, colsInit,
    List.map_map, Function.comp, zipWith_map_same]

theorem Bohachevsky_mat_eq_map (A : List (List ℝ)) :
    Bohachevsky_mat A = A.map Bohachevsky_row := by
  simp [Bohachevsky_mat, Bohachevsky_row, ezip, sumAxis1, colsDrop, colsInit,
    List.map_map, Function.comp, zipWith_map_same]

theorem Schaffer_mat_eq_map (A : List (List ℝ)) :
    Schaffer_mat A = A.map Schaffer_row := by
  simp [Schaffer_mat, Schaffer_row, ezip, sumAxis1, colsDrop, colsInit,
    List.map_map, Function.comp, zipWith_map_same]

theorem Ackley_mat_eq_map {m : ℕ} (A : List (List ℝ))
    (h : ∀ r ∈ A, r.length = m) :
    Ackley_mat A = A.map (Ackley_row m) := by
  cases A with
  | nil => rfl
  | cons r rs =>
    have hm : r.length = m := h r (List.mem_cons_self r rs)
    subst hm
    simp [Ackley_mat, Ackley_row, sumAxis1, emap, ncols, List.map_map, Function.comp,
      zipWith_map_same]

theorem Rastrigin_mat_eq_map {m : ℕ} (A : List (List ℝ))
    (h : ∀ r ∈ A, r.length = m) :
    Rastrigin_mat A = A.map (Rastrigin_row m) := by
  cases A with
  | nil => rfl
  | cons r rs =>
    have hm : r.length = m := h r (List.mem_cons_self r rs)
    subst hm
    simp [Rastrigin_mat, Rastrigin_row, sumAxis1, emap, ncols, List.map_map, Function.comp]

theorem mapM_ok_map {α β : Type _} (f : α → Except String β) (g : α → β) :
    ∀ l : List α, (∀ a ∈ l, f a = .ok (g a)) → l.mapM f = .ok (l.map g) := by
  intro l
  induction l with
  | nil => intro _; rfl
  | cons a t ih =>
    intro h
    rw [List.mapM_cons, h a (List.mem_cons_self a t),
      ih (fun b hb => h b (List.mem_cons_of_mem a hb))]
    rfl

theorem except_bind_ok {α β : Type _} (a : α) (f : α → Except String β) :
    Except.bind (Except.ok a) f = f a := rfl

theorem except_bind_error {α β : Type _} (msg : String) (f : α → Except String β) :
    Except.bind (Except.error msg : Except String α) f = Except.error msg := rfl

theorem Ellipsoid_exps_ok (dim : ℕ) (h : dim ≠ 1) :
    (List.range dim).mapM (fun i => pydivE i (dim - 1)) =
      .ok ((List.range dim).map (fun i : ℕ => (i : ℝ) / ((dim : ℝ) - 1))) := by
  rcases Nat.eq_zero_or_pos dim with h0 | hpos
  · subst h0; rfl
  · have h1 : dim - 1 ≠ 0 := by omega
    have hcast : ((dim - 1 : ℕ) : ℝ) = (dim : ℝ) - 1 := by
      rw [Nat.cast_sub hpos, Nat.cast_one]
    apply mapM_ok_map
    intro a _
    simp [pydivE, h1, hcast]

theorem Ellipsoid_eq_ok (x : PyArr) (h2 : x.rank = 2) (hnc : ncols x.toMat ≠ 1) :
    Ellipsoid x = .ok (Ellipsoid_mat x.toMat) := by
  have hc : check x = .ok x.toMat := by simp [check, h2]
  have he := Ellipsoid_exps_ok (ncols x.toMat) hnc
  simp only [Ellipsoid, hc, except_bind_ok]
  rw [he]
  simp only [except_bind_ok]
  simp [Ellipsoid_mat, Ellipsoid_coef, List.map_map, Function.comp_def]

/-- C1 (amended): on any input whose coerced rank is not 2, `check` and all
nine evaluation operations raise the `InvalidShapeError` carrying the
reshape remediation hint; on any rank-2 numeric input the validator returns
the coerced 2D array and the operations raise no error, except that
`Ellipsoid` on a single-column input (`m = 1`) raises `ZeroDivisionError`
from the exponent denominator `dim - 1`; away from that case `Ellipsoid`
raises no error either. -/
theorem c1_shape_validation (x : PyArr) :
    (x.rank ≠ 2 →
      check x = .error shapeErrMsg ∧
      Sphere x = .error shapeErrMsg ∧
      Ellipsoid x = .error shapeErrMsg ∧
      kTablet x = .error shapeErrMsg ∧
      RosenbrockStar x = .error shapeErrMsg ∧
      RosenbrockChain x = .error shapeErrMsg ∧
      Bohachevsky x = .error shapeErrMsg ∧
      Ackley x = .error shapeErrMsg ∧
      Schaffer x = .error shapeErrMsg ∧
      Rastrigin x = .error shapeErrMsg) ∧
    (x.rank = 2 →
      check x = .ok x.toMat ∧
      Sphere x = .ok (Sphere_mat x.toMat) ∧
      (ncols x.toMat ≠ 1 → Ellipsoid x = .ok (Ellipsoid_mat x.toMat)) ∧
      (ncols x.toMat = 1 →
        Ellipsoid x = .error "ZeroDivisionError: division by zero") ∧
      kTablet x = .ok (kTablet_mat x.toMat) ∧
      RosenbrockStar x = .ok (RosenbrockStar_mat x.toMat) ∧
      RosenbrockChain x = .ok (RosenbrockChain_mat x.toMat) ∧
      Bohachevsky x = .ok (Bohachevsky_mat x.toMat) ∧
      Ackley x = .ok (Ackley_mat x.toMat) ∧
      Schaffer x = .ok (Schaffer_mat x.toMat) ∧
      Rastrigin x = .ok (Rastrigin_mat x.toMat)) := by
  constructor
  · intro h
    have hc : check x = .error shapeErrMsg := by simp [check, h]
    refine ⟨hc, ?_, ?_, ?_, ?_, ?_, ?_, ?_, ?_, ?_⟩ <;>
      simp [Sphere, Ellipsoid, kTablet, RosenbrockStar, RosenbrockChain, Bohachevsky,
        Ackley, Schaffer, Rastrigin, hc, Except.map, except_bind_error]
  · intro h
    have hc : check x = .ok x.toMat := by simp [check, h]
    refine ⟨hc, ?_, fun hnc => Ellipsoid_eq_ok x h hnc, ?_, ?_, ?_, ?_, ?_, ?_, ?_, ?_⟩
    · simp [Sphere, hc, Except.map]
    · intro h1
      simp only [Ellipsoid, hc, except_bind_ok, h1]
      rfl
    · simp [kTablet, hc, Except.map]
    · simp [RosenbrockStar, hc, Except.map]
    · simp [RosenbrockChain, hc, Except.map]
    · simp [Bohachevsky, hc, Except.map]
    · simp [Ackley, hc, Except.map]
    · simp [Schaffer, hc, Except.map]
    · simp [Rastrigin, hc, Except.map]

/-- C1 counterexample: the claim that every evaluation operation raises no
error on every rank-2 numeric input is false: on the rank-2 input `[[1]]`
(shape `(1, 1)`), `Ellipsoid` raises `ZeroDivisionError` computing the
exponent `0/(1-1)` of its coefficient list. -/
theorem c1_counterexample :
    PyArr.rank (.arr [.arr [.scalar 1]]) = 2 ∧
    Ellipsoid (.arr [.arr [.scalar 1]]) =
      .error "ZeroDivisionError: division by zero" := by
  constructor
  · rfl
  · rfl

/-- C1 witness: the amended theorem applied at a rank-1 input (rejected
with the reshape hint) and at a rank-2 two-column input (accepted by all
operations, including `Ellipsoid`). -/
theorem c1_shape_validation_witness :
    Sphere (.arr [.scalar 1, .scalar 2]) = .error shapeErrMsg ∧
    Ellipsoid (.arr [.arr [.scalar 1, .scalar 2]]) =
      .ok (Ellipsoid_mat [[1, 2]]) := by
  constructor
  · exact ((c1_shape_validation (.arr [.scalar 1, .scalar 2])).1
      (by simp [PyArr.rank])).2.1
  · exact ((c1_shape_validation (.arr [.arr [.scalar 1, .scalar 2]])).2 rfl).2.2.1
      (by simp [PyArr.toMat, PyArr.toRow, PyArr.toScalar, ncols])

/-- C2: on a validated batch of `n` rows of common width `m` (the shape
`(n, m)` of a rank-2 input), each of the nine evaluation bodies equals the
row-wise map of its per-row function and returns exactly `n` values; the
map form makes output entry `i` a function of input row `i` alone and keeps
outputs positionally aligned with rows, so swapping two input rows swaps
exactly the two corresponding outputs. -/
theorem c2_batch_row_locality (A : List (List ℝ)) (n m : ℕ)
    (hn : A.length = n) (h : ∀ r ∈ A, r.length = m) :
    (Sphere_mat A = A.map Sphere_row ∧ (Sphere_mat A).length = n) ∧
    (Ellipsoid_mat A = A.map (Ellipsoid_row m) ∧ (Ellipsoid_mat A).length = n) ∧
    (kTablet_mat A = A.map (kTablet_row m) ∧ (kTablet_mat A).length = n) ∧
    (RosenbrockStar_mat A = A.map RosenbrockStar_row ∧
      (RosenbrockStar_mat A).length = n) ∧
    (RosenbrockChain_mat A = A.map RosenbrockChain_row ∧
      (RosenbrockChain_mat A).length = n) ∧
    (Bohachevsky_mat A = A.map Bohachevsky_row ∧ (Bohachevsky_mat A).length = n) ∧
    (Ackley_mat A = A.map (Ackley_row m) ∧ (Ackley_mat A).length = n) ∧
    (Schaffer_mat A = A.map Schaffer_row ∧ (Schaffer_mat A).length = n) ∧
    (Rastrigin_mat A = A.map (Rastrigin_row m) ∧ (Rastrigin_mat A).length = n) := by
  subst hn
  have h1 := Sphere_mat_eq_map A
  have h2 := Ellipsoid_mat_eq_map A h
  have h3 := kTablet_mat_eq_map A h
  have h4 := RosenbrockStar_mat_eq_map A
  have h5 := RosenbrockChain_mat_eq_map A
  have h6 := Bohachevsky_mat_eq_map A
  have h7 := Ackley_mat_eq_map A h
  have h8 := Schaffer_mat_eq_map A
  have h9 := Rastrigin_mat_eq_map A h
  exact ⟨⟨h1, by rw [h1, List.length_map]⟩, ⟨h2, by rw [h2, List.length_map]⟩,
    ⟨h3, by rw [h3, List.length_map]⟩, ⟨h4, by rw [h4, List.length_map]⟩,
    ⟨h5, by rw [h5, List.length_map]⟩, ⟨h6, by rw [h6, List.length_map]⟩,
    ⟨h7, by rw [h7, List.length_map]⟩, ⟨h8, by rw [h8, List.length_map]⟩,
    ⟨h9, by rw [h9, List.length_map]⟩⟩

/-- C2 witness: the theorem applied to the concrete shape-`(2, 2)` batch
`[[1, 2], [3, 4]]`. -/
theorem c2_batch_row_locality_witness :
    Sphere_mat [[(1 : ℝ), 2], [3, 4]] = [Sphere_row [(1 : ℝ), 2], Sphere_row [3, 4]] ∧
    (Sphere_mat [[(1 : ℝ), 2], [3, 4]]).length = 2 := by
  have h := c2_batch_row_locality [[(1 : ℝ), 2], [3, 4]] 2 2 rfl (by simp)
  simpa using h.1

/-- C8: `search_area` takes no input and cannot fail; it is the constant
table whose keys are exactly the nine function names in source order, each
mapped to a strictly ascending two-element interval, and being a constant
it is identical on every call and independent of any dimension. -/
theorem c8_search_area_table :
    search_area.map Prod.fst =
      ["Sphere", "Ellipsoid", "kTablet", "RosenbrockStar", "RosenbrockChain",
       "Bohachevsky", "Ackley", "Schaffer", "Rastrigin"] ∧
    search_area.length = 9 ∧
    ∀ p ∈ search_area, p.2.1 < p.2.2 := by
  refine ⟨rfl, rfl, ?_⟩
  intro p hp
  simp only [search_area, List.mem_cons, List.not_mem_nil, or_false] at hp
  rcases hp with h | h | h | h | h | h | h | h | h <;> subst h <;> norm_num

/-- C8 witness: the theorem's interval property discharged at the
`Sphere` entry of the table. -/
theorem c8_search_area_witness : (-5.12 : ℝ) < 5.12 :=
  c8_search_area_table.2.2 ("Sphere", (-5.12, 5.12)) (by simp [search_area])

/-- C9: for every integer `d`, `optimal_solution d` has exactly the nine
function-name keys; for `d ≥ 1` the entries for Sphere, Ellipsoid, kTablet,
Bohachevsky, Ackley, Schaffer are the length-`d` all-zeros vector and those
for RosenbrockStar, RosenbrockChain, Rastrigin the length-`d` all-ones
vector; for `d ≤ 0` every entry is the empty vector, and no error is
raised in any case (the function is total). -/
theorem c9_optimal_solution (d : ℤ) :
    (optimal_solution d).map Prod.fst =
      ["Sphere", "Ellipsoid", "kTablet", "RosenbrockStar", "RosenbrockChain",
       "Bohachevsky", "Ackley", "Schaffer", "Rastrigin"] ∧
    (1 ≤ d →
      (optimal_solution d).map Prod.snd =
        [List.replicate d.toNat (0 : ℝ), List.replicate d.toNat 0,
         List.replicate d.toNat 0, List.replicate d.toNat 1,
         List.replicate d.toNat 1, List.replicate d.toNat 0,
         List.replicate d.toNat 0, List.replicate d.toNat 0,
         List.replicate d.toNat 1] ∧
      ∀ p ∈ optimal_solution d, (p.2.length : ℤ) = d) ∧
    (d ≤ 0 → ∀ p ∈ optimal_solution d, p.2 = []) := by
  refine ⟨rfl, fun hd => ⟨rfl, ?_⟩, fun hd => ?_⟩
  · intro p hp
    simp only [optimal_solution, List.mem_cons, List.not_mem_nil, or_false] at hp
    rcases hp with h | h | h | h | h | h | h | h | h <;> subst h <;>
      simp [List.length_replicate] <;> omega
  · intro p hp
    simp only [optimal_solution, List.mem_cons, List.not_mem_nil, or_false] at hp
    rcases hp with h | h | h | h | h | h | h | h | h <;> subst h <;>
      simp [List.replicate_eq_nil_iff] <;> omega

/-- C9 witness: the theorem applied at `d = 3` and at `d = -1`. -/
theorem c9_optimal_solution_witness :
    (optimal_solution 3).map Prod.snd =
      [List.replicate 3 (0 : ℝ), List.replicate 3 0, List.replicate 3 0,
       List.replicate 3 1, List.replicate 3 1, List.replicate 3 0,
       List.replicate 3 0, List.replicate 3 0, List.replicate 3 1] ∧
    ∀ p ∈ optimal_solution (-1), p.2 = [] := by
  constructor
  · exact ((c9_optimal_solution 3).2.1 (by norm_num)).1
  · exact (c9_optimal_solution (-1)).2.2 (by norm_num)

theorem Ellipsoid_row_eq_sum {m : ℕ} (x : List ℝ) (hx : x.length = m) :
    Ellipsoid_row m x = ∑ i ∈ Finset.range m,
      (x.getD i 0 * (1000 : ℝ) ^ ((i : ℝ) / ((m : ℝ) - 1))) ^ 2 := by
  unfold Ellipsoid_row Ellipsoid_coef
  rw [List.map_zipWith]
  have hlen : x.length =
      ((List.range m).map (fun i : ℕ => (1000 : ℝ) ^ ((i : ℝ) / ((m : ℝ) - 1)))).length := by
    simp [hx]
  rw [sum_zipWith_getD _ _ _ hlen, hx]
  refine Finset.sum_congr rfl ?_
  intro i hi
  rw [getD_range_map _ (Finset.mem_range.mp hi)]

/-- C3: on a validated `(n, m)` batch with `m ≥ 2`, `Ellipsoid` computes for
each row `x` the sum over `i = 0..m-1` of `(x i * c i)^2` with
`c i = 1000^(i/(m-1))`; the `m = 1` case is excluded as a precondition (there
the exponent denominator is zero, see the shape-validation development). -/
theorem c3_ellipsoid_formula (A : List (List ℝ)) (n m : ℕ) (hm : 2 ≤ m)
    (hn : A.length = n) (h : ∀ r ∈ A, r.length = m) :
    Ellipsoid_mat A = A.map (fun x => ∑ i ∈ Finset.range m,
      (x.getD i 0 * (1000 : ℝ) ^ ((i : ℝ) / ((m : ℝ) - 1))) ^ 2) := by
  rw [Ellipsoid_mat_eq_map A h]
  exact List.map_congr_left (fun x hx => Ellipsoid_row_eq_sum x (h x hx))

/-- C3 witness: the theorem applied to the shape-`(2, 2)` batch
`[[1, 2], [3, 4]]`. -/
theorem c3_ellipsoid_formula_witness :
    Ellipsoid_mat [[(1 : ℝ), 2], [3, 4]] =
      [[(1 : ℝ), 2], [3, 4]].map (fun x => ∑ i ∈ Finset.range 2,
        (x.getD i 0 * (1000 : ℝ) ^ ((i : ℝ) / ((2 : ℝ) - 1))) ^ 2) :=
  c3_ellipsoid_formula [[(1 : ℝ), 2], [3, 4]] 2 2 (by norm_num) rfl (by simp)

theorem nat_ceil_div_four (m : ℕ) : ⌈(m : ℚ) / 4⌉₊ = (m + 3) / 4 := by
  rcases Nat.eq_zero_or_pos m with h0 | hpos
  · subst h0; simp
  · have hn : (m + 3) / 4 ≠ 0 := by omega
    rw [Nat.ceil_eq_iff hn]
    constructor
    · have hlt : ((m + 3) / 4 - 1) * 4 < m := by omega
      rw [lt_div_iff₀ (by norm_num : (0 : ℚ) < 4)]
      exact_mod_cast hlt
    · have hle : m ≤ (m + 3) / 4 * 4 := by omega
      rw [div_le_iff₀ (by norm_num : (0 : ℚ) < 4)]
      exact_mod_cast hle

theorem getD_take_of_lt (x : List ℝ) (k i : ℕ) (h : i < k) (h2 : i < x.length) :
    (x.take k).getD i 0 = x.getD i 0 := by
  have h1 : i < (x.take k).length := by
    simp only [List.length_take]
    omega
  rw [List.getD_eq_getElem _ _ h1, List.getD_eq_getElem _ _ h2]
  simp

theorem getD_drop_of_lt (x : List ℝ) (k i : ℕ) (h : k + i < x.length) :
    (x.drop k).getD i 0 = x.getD (k + i) 0 := by
  have h1 : i < (x.drop k).length := by
    simp only [List.length_drop]
    omega
  rw [List.getD_eq_getElem _ _ h1, List.getD_eq_getElem _ _ h]
  simp

theorem kTablet_row_eq_sum {m : ℕ} (x : List ℝ) (hx : x.length = m) :
    kTablet_row m x =
      (∑ i ∈ Finset.range ((m + 3) / 4), x.getD i 0 ^ 2)
        + ∑ i ∈ Finset.Ico ((m + 3) / 4) m, (100 * x.getD i 0) ^ 2 := by
  have hk : (m + 3) / 4 ≤ m := by omega
  unfold kTablet_row
  rw [List.map_map, sum_map_getD, sum_map_getD]
  have hlt : (x.take ((m + 3) / 4)).length = (m + 3) / 4 := by
    simp [List.length_take, hx]
    omega
  have hld : (x.drop ((m + 3) / 4)).length = m - (m + 3) / 4 := by
    simp [List.length_drop, hx]
  rw [hlt, hld, Finset.sum_Ico_eq_sum_range]
  congr 1
  · refine Finset.sum_congr rfl ?_
    intro i hi
    have him := Finset.mem_range.mp hi
    rw [getD_take_of_lt x _ i him (by omega)]
  · refine Finset.sum_congr rfl ?_
    intro i hi
    have him := Finset.mem_range.mp hi
    rw [Function.comp, getD_drop_of_lt x _ i (by omega)]

/-- C4: on a validated `(n, m)` batch with `m ≥ 1`, `kTablet` computes for
each row `x` the sum of squares of the first `k = ceil(m/4)` coordinates
plus the sum of squares of the remaining `m - k` coordinates each scaled by
100 first. -/
theorem c4_ktablet_formula (A : List (List ℝ)) (n m : ℕ) (hm : 1 ≤ m)
    (hn : A.length = n) (h : ∀ r ∈ A, r.length = m) :
    kTablet_mat A = A.map (fun x =>
      (∑ i ∈ Finset.range (⌈(m : ℚ) / 4⌉₊), x.getD i 0 ^ 2)
        + ∑ i ∈ Finset.Ico (⌈(m : ℚ) / 4⌉₊) m, (100 * x.getD i 0) ^ 2) := by
  rw [kTablet_mat_eq_map A h, nat_ceil_div_four]
  exact List.map_congr_left (fun x hx => kTablet_row_eq_sum x (h x hx))

/-- C4 witness: the theorem applied to the shape-`(1, 5)` batch
`[[1, 2, 3, 4, 5]]`, where `k = ceil(5/4) = 2`. -/
theorem c4_ktablet_formula_witness :
    kTablet_mat [[(1 : ℝ), 2, 3, 4, 5]] = [[(1 : ℝ), 2, 3, 4, 5]].map (fun x =>
      (∑ i ∈ Finset.range (⌈(5 : ℚ) / 4⌉₊), x.getD i 0 ^ 2)
        + ∑ i ∈ Finset.Ico (⌈(5 : ℚ) / 4⌉₊) 5, (100 * x.getD i 0) ^ 2) :=
  c4_ktablet_formula [[(1 : ℝ), 2, 3, 4, 5]] 1 5 (by norm_num) rfl (by simp)

theorem RosenbrockStar_row_eq_sum {m : ℕ} (x : List ℝ) (hx : x.length = m) :
    RosenbrockStar_row x = ∑ i ∈ Finset.Ico 1 m,
      (100 * (x.getD 0 0 - x.getD i 0 ^ 2) ^ 2 + (1 - x.getD i 0) ^ 2) := by
  have hhead : (x.take 1).headD 0 = x.getD 0 0 := by
    cases x <;> rfl
  unfold RosenbrockStar_row
  rw [hhead, sum_map_getD]
  have hld : (x.drop 1).length = m - 1 := by simp [hx]
  rw [hld, Finset.sum_Ico_eq_sum_range]
  refine Finset.sum_congr rfl ?_
  intro i hi
  have him := Finset.mem_range.mp hi
  rw [getD_drop_of_lt x 1 i (by omega)]

/-- C5: on a validated `(n, m)` batch with `m ≥ 2`, `RosenbrockStar`
computes for each row `x` the sum over the 1-based indices `i = 2..m` of
`100*(x 1 - (x i)^2)^2 + (1 - x i)^2` (0-based: `i ∈ [1, m)`), coupling
every later coordinate to the first coordinate. -/
theorem c5_rosenbrock_star_formula (A : List (List ℝ)) (n m : ℕ) (hm : 2 ≤ m)
    (hn : A.length = n) (h : ∀ r ∈ A, r.length = m) :
    RosenbrockStar_mat A = A.map (fun x => ∑ i ∈ Finset.Ico 1 m,
      (100 * (x.getD 0 0 - x.getD i 0 ^ 2) ^ 2 + (1 - x.getD i 0) ^ 2)) := by
  rw [RosenbrockStar_mat_eq_map A]
  exact List.map_congr_left (fun x hx => RosenbrockStar_row_eq_sum x (h x hx))

/-- C5 witness: the theorem applied to the shape-`(1, 3)` batch
`[[2, 3, 4]]`. -/
theorem c5_rosenbrock_star_formula_witness :
    RosenbrockStar_mat [[(2 : ℝ), 3, 4]] = [[(2 : ℝ), 3, 4]].map (fun x =>
      ∑ i ∈ Finset.Ico 1 3,
        (100 * (x.getD 0 0 - x.getD i 0 ^ 2) ^ 2 + (1 - x.getD i 0) ^ 2)) :=
  c5_rosenbrock_star_formula [[(2 : ℝ), 3, 4]] 1 3 (by norm_num) rfl (by simp)

/-- C6: on the all-ones batch (every row the length-`m` all-ones vector),
`RosenbrockStar` and `RosenbrockChain` (for `m ≥ 2`) and `Rastrigin`
(for `m ≥ 1`, its optimum being shifted to all-ones) return exactly `0`
for every one of the `n` rows. -/
theorem c6_all_ones_optimum (n m : ℕ) :
    (2 ≤ m →
      RosenbrockStar_mat (List.replicate n (List.replicate m 1)) = List.replicate n 0 ∧
      RosenbrockChain_mat (List.replicate n (List.replicate m 1)) = List.replicate n 0) ∧
    (1 ≤ m →
      Rastrigin_mat (List.replicate n (List.replicate m 1)) = List.replicate n 0) := by
  have hmem : ∀ r ∈ List.replicate n (List.replicate m (1 : ℝ)), r.length = m := by
    intro r hr
    rw [List.eq_of_mem_replicate hr, List.length_replicate]
  constructor
  · intro hm2
    constructor
    · rw [RosenbrockStar_mat_eq_map, List.map_replicate]
      have hrow : RosenbrockStar_row (List.replicate m (1 : ℝ)) = 0 := by
        have h1 : min 1 m = 1 := by omega
        simp [RosenbrockStar_row, List.take_replicate, List.drop_replicate, h1,
          List.map_replicate, List.sum_replicate]
      rw [hrow]
    · rw [RosenbrockChain_mat_eq_map, List.map_replicate]
      have hrow : RosenbrockChain_row (List.replicate m (1 : ℝ)) = 0 := by
        simp [RosenbrockChain_row, List.drop_replicate, List.dropLast_replicate,
          List.zipWith_replicate', List.sum_replicate]
      rw [hrow]
  · intro hm1
    rw [Rastrigin_mat_eq_map _ hmem, List.map_replicate]
    have hrow : Rastrigin_row m (List.replicate m (1 : ℝ)) = 0 := by
      simp [Rastrigin_row, List.map_replicate, List.sum_replicate, nsmul_eq_mul]
      ring
    rw [hrow]

/-- C6 witness: the theorem applied at `n = 2`, `m = 3`. -/
theorem c6_all_ones_optimum_witness :
    RosenbrockStar_mat (List.replicate 2 (List.replicate 3 (1 : ℝ))) = List.replicate 2 0 ∧
    RosenbrockChain_mat (List.replicate 2 (List.replicate 3 (1 : ℝ))) = List.replicate 2 0 ∧
    Rastrigin_mat (List.replicate 2 (List.replicate 3 (1 : ℝ))) = List.replicate 2 0 := by
  have h := c6_all_ones_optimum 2 3
  exact ⟨(h.1 (by norm_num)).1, (h.1 (by norm_num)).2, h.2 (by norm_num)⟩

/-- C7 counterexample: the claim that `Rastrigin([[0, 0]])` returns `22.0`
is false: the returned value is `10*2 + 2*((0-1)^2 - 10*cos(2*pi*(0-1))) =
20 + 2*(1 - 10) = 2`, not `22`. -/
theorem c7_counterexample : Rastrigin_mat [[(0 : ℝ), 0]] ≠ [22] := by
  have hc2 : Real.cos (2 * Real.pi * ((0 : ℝ) - 1)) = 1 := by
    rw [show 2 * Real.pi * ((0 : ℝ) - 1) = -(2 * Real.pi) by ring, Real.cos_neg,
      Real.cos_two_pi]
  intro hEq
  simp only [Rastrigin_mat, sumAxis1, emap, ncols, List.map_cons, List.map_nil,
    List.headD_cons, List.sum_cons, List.sum_nil, List.length_cons, List.length_nil,
    hc2, List.cons.injEq, and_true] at hEq
  norm_num at hEq

/-- C7 (amended): `Rastrigin` on the batch `[[0, 0]]` (the all-zeros row
with `m = 2`) returns the single value `20 + 2*(1 - 10*cos(2π))`, which
equals `2.0` (not `22.0`): direct formula evaluation gives
`10*2 + 2*((0-1)^2 - 10*cos(-2π)) = 20 + 2*(1 - 10)`. -/
theorem c7_rastrigin_at_zero :
    Rastrigin_mat [[(0 : ℝ), 0]] = [20 + 2 * (1 - 10 * Real.cos (2 * Real.pi))] ∧
    20 + 2 * (1 - 10 * Real.cos (2 * Real.pi)) = (2 : ℝ) := by
  have hcos : Real.cos (2 * Real.pi * ((0 : ℝ) - 1)) = Real.cos (2 * Real.pi) := by
    rw [show 2 * Real.pi * ((0 : ℝ) - 1) = -(2 * Real.pi) by ring, Real.cos_neg]
  constructor
  · simp only [Rastrigin_mat, sumAxis1, emap, ncols, List.map_cons, List.map_nil,
      List.headD_cons, List.sum_cons, List.sum_nil, List.length_cons, List.length_nil,
      hcos, List.cons.injEq, and_true]
    push_cast
    ring
  · rw [Real.cos_two_pi]
    norm_num

/-- C10: on a rank-2 single-column batch (shape `(n, 1)`, built as a Python
list of `n` singleton rows), `RosenbrockStar`, `RosenbrockChain`,
`Bohachevsky`, and `Schaffer` raise no error and return exactly `0` for
every row: their rest/neighbor column slices are empty, so every row sum is
the empty sum. -/
theorem c10_single_column (xs : List ℝ) (hne : xs ≠ []) :
    RosenbrockStar (colArr xs) = .ok (List.replicate xs.length 0) ∧
    RosenbrockChain (colArr xs) = .ok (List.replicate xs.length 0) ∧
    Bohachevsky (colArr xs) = .ok (List.replicate xs.length 0) ∧
    Schaffer (colArr xs) = .ok (List.replicate xs.length 0) := by
  obtain ⟨a, t, rfl⟩ := List.exists_cons_of_ne_nil hne
  have h2 : (colArr (a :: t)).rank = 2 := rfl
  have hc : check (colArr (a :: t)) = .ok (PyArr.toMat (colArr (a :: t))) := by
    simp [check, h2]
  have hmat : PyArr.toMat (colArr (a :: t)) = (a :: t).map (fun r => [r]) := by
    simp [colArr, PyArr.toMat, PyArr.toRow, PyArr.toScalar, List.map_map,
      Function.comp_def]
  refine ⟨?_, ?_, ?_, ?_⟩ <;>
    simp [RosenbrockStar, RosenbrockChain, Bohachevsky, Schaffer, hc, hmat, Except.map,
      RosenbrockStar_mat_eq_map, RosenbrockChain_mat_eq_map, Bohachevsky_mat_eq_map,
      Schaffer_mat_eq_map, RosenbrockStar_row, RosenbrockChain_row, Bohachevsky_row,
      Schaffer_row, List.map_map, Function.comp_def, List.dropLast_single,
      List.map_const', List.replicate_succ]

/-- C10 witness: the theorem applied to the concrete shape-`(2, 1)` input
`[[5], [7]]`. -/
theorem c10_single_column_witness :
    RosenbrockStar (colArr [(5 : ℝ), 7]) = .ok (List.replicate 2 0) :=
  (c10_single_column [(5 : ℝ), 7] (by simp)).1
